import Mathlib

/-!
# Verification of the Process-Watcher collection engine

Shallow embedding of `src/process_collector.py` and `src/output_formatter.py`.

External effects (filesystem reads under `/proc`, `subprocess.run` of `ps`,
`sysctl` and `powershell`, and the `psutil` library calls) are modelled as
oracle fields of an environment structure: each oracle yields either the
structured value the call produced or the Python exception it raised.  The
Python code itself (control flow, string parsing, try/except scoping,
counters) is translated statement by statement.  Python `str` operations are
re-implemented by structural recursion over `List Char` so every definition
evaluates inside the kernel.  Python `float` arithmetic is modelled at
rational precision; `round(x, 2)` is modelled as rounding `100*x` to the
nearest integer (tie behaviour on binary floats is not observable at exact
two-decimal ties, since such ties are not exactly representable).
-/

/- Allow kernel evaluation of rational arithmetic in concrete instances. -/
unseal Nat.gcd Rat.mul Rat.inv Rat.add Rat.sub

/-! ## Python string primitives -/

/-- Python `str.strip()` on the left: drop leading whitespace characters. -/
def chDropWs : List Char → List Char
  | [] => []
  | c :: cs => if c.isWhitespace then chDropWs cs else c :: cs

/-- Python `str.strip()`: drop whitespace on both ends. -/
def pyStrip (s : String) : String :=
  ((chDropWs (chDropWs s.toList).reverse).reverse).asString

/-- Split a character list at every character satisfying `p`, keeping empty
pieces (the semantics of Python `str.split(sep)` for a one-character `sep`,
with `p` testing for that character). -/
def chSplitP (p : Char → Bool) : List Char → List (List Char)
  | [] => [[]]
  | c :: cs =>
    let r := chSplitP p cs
    if p c then [] :: r
    else
      match r with
      | [] => [[c]]
      | h :: t => (c :: h) :: t

/-- Python `s.split(sep)` for a single-character separator. -/
def pySplitChar (sep : Char) (s : String) : List String :=
  (chSplitP (· = sep) s.toList).map List.asString

/-- Python `s.split()` (no argument): split on whitespace runs, discarding
empty pieces.  The source also uses `split(maxsplit=6)`; since only the
first five fields are ever read and the length is only compared against 5,
the unlimited split is observationally equivalent at every use site. -/
def pySplitWs (s : String) : List String :=
  ((chSplitP Char.isWhitespace s.toList).filter (· ≠ [])).map List.asString

/-- Python `s.split(sep, 1)`: the part before the first separator and the
rest (the whole string and `""` when the separator does not occur). -/
def pySplit1 (sep : Char) (s : String) : String × String :=
  match pySplitChar sep s with
  | [] => (s, "")
  | h :: t => (h, String.intercalate (String.mk [sep]) t)

/-- All suffixes of a character list. -/
def chTails : List Char → List (List Char)
  | [] => [[]]
  | c :: cs => (c :: cs) :: chTails cs

/-- Python `needle in hay` on strings: substring containment. -/
def pyIn (needle hay : String) : Bool :=
  (chTails hay.toList).any (fun t => needle.toList.isPrefixOf t)

/-- Python `s.startswith(p)`. -/
def pyStarts (p s : String) : Bool :=
  p.toList.isPrefixOf s.toList

/-- Python `s.lower()` (ASCII case folding, the only case used here). -/
def pyLower (s : String) : String :=
  (s.toList.map Char.toLower).asString

/-- Python `sep.join(parts)`. -/
def pyJoin (sep : String) : List String → String
  | [] => ""
  | h :: t => t.foldl (fun acc x => acc ++ sep ++ x) h

/-! ## `sorted(pids, reverse=True)` -/

/-- Insert into a descending-sorted list of PIDs. -/
def insDesc (x : Int) : List Int → List Int
  | [] => [x]
  | y :: ys => if x ≥ y then x :: y :: ys else y :: insDesc x ys

/-- `sorted(pids, reverse=True)`: descending sort.  (Python uses a stable
mergesort; on integers any sorting algorithm produces the same list, so the
insertion sort below is extensionally the same function.) -/
def sortDesc (l : List Int) : List Int := l.foldr insDesc []

/-! ## Python `round(x, 2)` at rational precision -/

/-- Python `round(x, 2)` modelled on rationals: round `100*x` to the nearest
integer and divide back. -/
def pyRound2 (q : ℚ) : ℚ := (round (q * 100) : ℤ) / 100

/-! ## Python exceptions and the external-call environment -/

/-- A Python exception as observed by the handlers in the source: whether it
is a `PermissionError` (the only type the source discriminates on), and its
`str(e)` rendering. -/
structure PyErr where
  isPerm : Bool
  msg : String
  deriving DecidableEq, Repr

/-- `str(KeyError(k))`: the quoted key. -/
def keyErrMsg (k : String) : String := "\x27" ++ k ++ "\x27"

/-- `str(ValueError)` raised by `int(s)` on a bad literal. -/
def intLitErrMsg (s : String) : String :=
  "invalid literal for int() with base 10: \x27" ++ s ++ "\x27"

/-- `str(ValueError)` raised by `float(s)` on a bad literal. -/
def floatLitErrMsg (s : String) : String :=
  "could not convert string to float: \x27" ++ s ++ "\x27"

/-- `str(ZeroDivisionError)`. -/
def zeroDivMsg : String := "division by zero"

/-- `str(AttributeError)` raised by `proc_info.command` in the macOS variant
(`ProcessInfo` defines no attribute `command`). -/
def attrCommandMsg : String :=
  "\x27ProcessInfo\x27 object has no attribute \x27command\x27"

/-- `str(AttributeError)` raised by `proc_info.get(...)` in the engine loop
when the resolver returned a `ProcessInfo` object instead of a dict. -/
def attrGetObjMsg : String :=
  "\x27ProcessInfo\x27 object has no attribute \x27get\x27"

/-- `str(AttributeError)` raised by `proc_info.get(...)` in the engine loop
when the resolver returned `None` (unsupported platform). -/
def attrGetNoneMsg : String :=
  "\x27NoneType\x27 object has no attribute \x27get\x27"

/-- Outcome of the `psutil` calls inside `_get_cpu_usage` for one PID:
either an exception of the caught tuple `(NoSuchProcess, AccessDenied)`,
some other exception, or the values the three calls produced
(`is_running()`, `cpu_percent(interval)`, `len(cpu_affinity())`). -/
inductive CpuRes where
  | caughtErr
  | raised (e : PyErr)
  | val (running : Bool) (percent : ℚ) (affinity : Nat)
  deriving DecidableEq

/-- The fields the Windows PowerShell query serializes and
`json.loads` recovers: `Name`, `User` and `Memory (MB)` (absent keys and
JSON `null` both surface as `None` through `dict.get`).  `CPU` is fetched
but never read by the source. -/
structure WinJson where
  name : Option String
  user : Option String
  memMB : Option ℚ
  deriving DecidableEq

/-- Oracle environment for one collection pass: the outcome of every
external call the collector can make, indexed by PID where the call is
per-PID.  `Except.error e` means the call raised `e`. -/
structure Env where
  /-- `int(s)`: `none` models the `ValueError`. -/
  pyInt : String → Option Int
  /-- `float(s)`: `none` models the `ValueError`. -/
  pyFloat : String → Option ℚ
  /-- the `psutil` calls inside `_get_cpu_usage(pid)` -/
  cpu : Int → CpuRes
  /-- `psutil.Process(pid).username()` -/
  username : Int → Except PyErr String
  /-- `psutil.Process(pid).memory_info().rss` (bytes) -/
  rss : Int → Except PyErr ℚ
  /-- `Path(f).exists()` for `/proc/pid/status` -/
  statusExists : Int → Bool
  /-- `open(/proc/pid/status).readlines()` (line iteration) -/
  statusRead : Int → Except PyErr (List String)
  /-- macOS `subprocess.run(ps -p pid -o ...)`: `(returncode, stdout)` -/
  psRun : Int → Except PyErr (Int × String)
  /-- Windows `subprocess.run(powershell Get-Process ...)`: `(returncode, stdout)` -/
  winRun : Int → Except PyErr (Int × String)
  /-- `json.loads` on the Windows query output -/
  jsonParse : String → Except PyErr WinJson
  /-- the raw PIDs accumulated by the platform branch of `_get_pid_list`
  (a prefix of the full enumeration if the branch raised mid-way) -/
  rawPids : List Int

/-! ## `ProcessInfo` and its `to_dict` -/

/-- The mutable `ProcessInfo` object (`process_collector.py` lines 15-26).
`cpu_percent` and `memory_megabyte` are `Option ℚ` because the Windows
variant can assign the JSON `null` to `memory_megabyte`; `to_dict` checks
`is not None`. -/
structure ProcessInfo where
  pid : Int
  name : Option String := none
  user : Option String := none
  cpu_percent : Option ℚ := some 0
  memory_megabyte : Option ℚ := some 0
  status : Option String := none
  accessible : Bool := true
  error : Option String := none
  deriving DecidableEq

/-- The dict produced by `ProcessInfo.to_dict`. -/
structure RecordDict where
  pid : Int
  name : Option String
  user : Option String
  cpu_percent : ℚ
  memory_megabyte : ℚ
  status : Option String
  accessible : Bool
  error : Option String
  deriving DecidableEq

/-- `ProcessInfo.to_dict` (lines 27-37): round CPU and memory to 2 decimal
places, substituting `0.0` for `None`. -/
def ProcessInfo.to_dict (p : ProcessInfo) : RecordDict :=
  { pid := p.pid
    name := p.name
    user := p.user
    cpu_percent := match p.cpu_percent with | some v => pyRound2 v | none => 0
    memory_megabyte := match p.memory_megabyte with | some v => pyRound2 v | none => 0
    status := p.status
    accessible := p.accessible
    error := p.error }

/-- What `get_process_info` hands the engine: a dict (Linux success and
exception paths, all Windows paths), a raw `ProcessInfo` object (all macOS
paths and the early return at line 166 of the Linux variant), or Python
`None` (unsupported platform: the dispatcher falls off the end). -/
inductive ResolveResult where
  | dict (r : RecordDict)
  | obj (p : ProcessInfo)
  | pynone
  deriving DecidableEq

/-! ## CPU sampler and Linux status reader -/

/-- `_get_cpu_usage` (lines 250-261): `cpu_percent(interval) / len(cpu_affinity())`
with `NoSuchProcess`/`AccessDenied` converted to `0.0`; any other exception
(including the `ZeroDivisionError` when the affinity list is empty)
propagates to the caller. -/
def getCpuUsage (env : Env) (pid : Int) : Except PyErr ℚ :=
  match env.cpu pid with
  | .caughtErr => .ok 0
  | .raised e => .error e
  | .val running percent affinity =>
    if running then
      if affinity = 0 then .error ⟨false, zeroDivMsg⟩
      else .ok (percent / affinity)
    else .ok 0

/-- The key/value parse loop of `_read_proc_status` (lines 144-149): keep
lines containing a colon, split on the first colon, strip both parts. -/
def parseStatusLines (lines : List String) : List (String × String) :=
  lines.filterMap fun line =>
    if pyIn ":" line then
      let kv := pySplit1 ':' line
      some (pyStrip kv.1, pyStrip kv.2)
    else none

/-- Python dict lookup over the insertion sequence (later assignments win). -/
def dictGet (d : List (String × String)) (k : String) : Option String :=
  (d.reverse.find? (fun kv => kv.1 = k)).map (·.2)

/-- `_read_proc_status` (lines 137-156): `None` when the file is missing or
any exception is raised; otherwise the parsed key/value pairs. -/
def readProcStatus (env : Env) (pid : Int) : Option (List (String × String)) :=
  if env.statusExists pid then
    match env.statusRead pid with
    | .error _ => none
    | .ok lines => some (parseStatusLines lines)
  else none

/-! ## The three platform variants of the metric source -/

/-- The `except PermissionError / except Exception` chain of the Linux
variant (lines 174-179), applied to the process object as mutated so far. -/
def linuxCatch (p : ProcessInfo) (e : PyErr) : ProcessInfo :=
  { p with accessible := false
           error := some (if e.isPerm then "Permission denied" else e.msg) }

/-- `_get_process_info_linux` (lines 158-181), as a function of the
outcomes of its four external calls (the oracles are pure in this model,
so passing the outcomes as values is observationally the composition the
source performs; `get_process_info_linux` below reassembles it).  The early
return at line 166 returns the raw `ProcessInfo` object (not a dict); every
other path returns `process.to_dict()`.  Python falsiness of `stat_data`
covers both `None` and the empty dict.  A missing `Name`/`State` key raises
`KeyError`, caught by the generic handler. -/
def linuxResolve (pid : Int) (statRes : Option (List (String × String)))
    (usernRes : Except PyErr String) (cpuRes : Except PyErr ℚ)
    (rssRes : Except PyErr ℚ) : ResolveResult :=
  let p : ProcessInfo := { pid := pid }
  match statRes with
  | none => .obj { p with accessible := false, error := some "Cannot read /proc/pid/stat" }
  | some stat =>
    if stat.isEmpty then
      .obj { p with accessible := false, error := some "Cannot read /proc/pid/stat" }
    else
      match dictGet stat "Name" with
      | none => .dict (linuxCatch p ⟨false, keyErrMsg "Name"⟩).to_dict
      | some nm =>
        let p := { p with name := some nm }
        match dictGet stat "State" with
        | none => .dict (linuxCatch p ⟨false, keyErrMsg "State"⟩).to_dict
        | some st =>
          let p := { p with status := some st }
          match usernRes with
          | .error e => .dict (linuxCatch p e).to_dict
          | .ok u =>
            let p := { p with user := some u }
            match cpuRes with
            | .error e => .dict (linuxCatch p e).to_dict
            | .ok cpu =>
              let p := { p with cpu_percent := some cpu }
              match rssRes with
              | .error e => .dict (linuxCatch p e).to_dict
              | .ok rssv =>
                .dict { p with memory_megabyte := some (rssv / (1024 * 1024)) }.to_dict

/-- `_get_process_info_linux` assembled from its oracle outcomes. -/
def get_process_info_linux (env : Env) (pid : Int) : ResolveResult :=
  linuxResolve pid (readProcStatus env pid) (env.username pid)
    (getCpuUsage env pid) (env.rss pid)

/-- `_get_process_info_macos` (lines 183-215).  Every path returns the raw
`ProcessInfo` object.  The whole body is inside one `try`; on the full
parse path line 210 reads `proc_info.command`, an attribute `ProcessInfo`
does not define, so an `AttributeError` is raised and caught, leaving the
partially-assigned fields in place with `accessible=False`. -/
def macosResolve (pid : Int) (psRes : Except PyErr (Int × String))
    (pyIntF : String → Option Int) (pyFloatF : String → Option ℚ) : ResolveResult :=
  let p : ProcessInfo := { pid := pid }
  .obj (match psRes with
  | .error e => { p with accessible := false, error := some ("Unexpected error: " ++ e.msg) }
  | .ok (rc, stdout) =>
    if rc ≠ 0 ∨ pyStrip stdout = "" then
      { p with accessible := false, error := some "Process not found or permission denied" }
    else
      let lines := pySplitChar '\n' (pyStrip stdout)
      if lines.length < 2 then
        { p with accessible := false, error := some "Invalid ps output" }
      else
        let dataLine := pyStrip (lines.getD 1 "")
        let fields := pySplitWs dataLine
        if fields.length < 5 then
          { p with accessible := false, error := some "Invalid ps output format" }
        else
          match pyIntF (fields.getD 0 "") with
          | none =>
            { p with accessible := false
                     error := some ("Unexpected error: " ++ intLitErrMsg (fields.getD 0 "")) }
          | some pidv =>
            let p := { p with pid := pidv, user := some (fields.getD 1 "") }
            match pyFloatF (fields.getD 2 "") with
            | none =>
              { p with accessible := false
                       error := some ("Unexpected error: " ++ floatLitErrMsg (fields.getD 2 "")) }
            | some cpuv =>
              let p := { p with cpu_percent := some cpuv }
              match pyFloatF (fields.getD 3 "") with
              | none =>
                { p with accessible := false
                         error := some ("Unexpected error: " ++ floatLitErrMsg (fields.getD 3 "")) }
              | some memv =>
                let p := { p with memory_megabyte := some memv
                                  status := some (fields.getD 4 "") }
                { p with accessible := false
                         error := some ("Unexpected error: " ++ attrCommandMsg) })

/-- `_get_process_info_macos` assembled from its oracle outcomes. -/
def get_process_info_macos (env : Env) (pid : Int) : ResolveResult :=
  macosResolve pid (env.psRun pid) env.pyInt env.pyFloat

/-- The `try` block of the Windows variant (lines 220-233 up to the CPU and
memory assignments): returns the process object as mutated so far, paired
with the exception if one was raised. -/
def winTryBody (pid : Int) (winRes : Except PyErr (Int × String))
    (jsonF : String → Except PyErr WinJson) (cpuRes : Except PyErr ℚ)
    (p0 : ProcessInfo) : ProcessInfo × Option PyErr :=
  match winRes with
  | .error e => (p0, some e)
  | .ok (rc, stdout) =>
    if rc = 0 ∧ pyStrip stdout ≠ "" then
      match jsonF (pyStrip stdout) with
      | .error e => (p0, some e)
      | .ok j =>
        let p1 := { p0 with accessible := true, name := j.name, user := j.user
                            status := some "Running" }
        match cpuRes with
        | .error e => (p1, some e)
        | .ok cpu => ({ p1 with cpu_percent := some cpu, memory_megabyte := j.memMB }, none)
    else (p0, none)

/-- `_get_process_info_windows` (lines 217-239): the name check at line 231
runs only when the `try` block completed; the `except` overwrites
`accessible`/`error` on the partially-assigned object; all paths return
`process.to_dict()`. -/
def winResolve (pid : Int) (winRes : Except PyErr (Int × String))
    (jsonF : String → Except PyErr WinJson) (cpuRes : Except PyErr ℚ) : ResolveResult :=
  let p0 : ProcessInfo := { pid := pid }
  match winTryBody pid winRes jsonF cpuRes p0 with
  | (p, some e) => .dict { p with accessible := false, error := some e.msg }.to_dict
  | (p, none) =>
    let nameFalsy : Bool := match p.name with | none => true | some s => s = ""
    if nameFalsy then
      .dict { p with accessible := false
                     error := some "Unable to retrieve process information" }.to_dict
    else .dict p.to_dict

/-- `_get_process_info_windows` assembled from its oracle outcomes. -/
def get_process_info_windows (env : Env) (pid : Int) : ResolveResult :=
  winResolve pid (env.winRun pid) env.jsonParse (getCpuUsage env pid)

/-- `get_process_info` (lines 241-248): platform dispatch.  On a platform
matching none of the three tests the Python function falls off the end and
returns `None`. -/
def get_process_info (env : Env) (os : String) (pid : Int) : ResolveResult :=
  if pyStarts "linux" os then get_process_info_linux env pid
  else if os = "darwin" then get_process_info_macos env pid
  else if pyIn "win" os then get_process_info_windows env pid
  else .pynone

/-! ## The collection engine -/

/-- `_get_pid_list` (lines 77-110): the platform branches accumulate raw
PIDs (here the `rawPids` oracle, which is a prefix of the enumeration if
the branch raised mid-way, the caught exception leaving a partial list);
line 110 returns them sorted in descending order. -/
def get_pid_list (env : Env) : List Int := sortDesc env.rawPids

/-- The `pids` variable after lines 274-276 of `collect_processes`: the
enumerated list, truncated to `max_processes` only when that cap is
positive. -/
def probedPids (env : Env) (maxProcesses : Int) : List Int :=
  let pids := get_pid_list env
  if maxProcesses > 0 then pids.take maxProcesses.toNat else pids

/-- One entry of `denied_processes` (lines 298-302 and 308-312). -/
structure DeniedDetail where
  pid : Int
  error : Option String
  name : String
  deriving DecidableEq

/-- `f"pid_{pid}"`. -/
def pidPlaceholder (pid : Int) : String := "pid_" ++ toString pid

/-- The loop state of `collect_processes`: the four accumulators declared
at lines 281-284. -/
structure CState where
  processes : List RecordDict := []
  denied : List DeniedDetail := []
  acc : Nat := 0
  den : Nat := 0
  deriving DecidableEq

/-- The shared shape of the two denied branches (lines 296-302 and
306-312). -/
def deniedStep (include_denied : Bool) (st : CState) (d : DeniedDetail) : CState :=
  { st with den := st.den + 1
            denied := if include_denied then st.denied ++ [d] else st.denied }

/-- One iteration of the per-PID loop (lines 286-312).  The engine calls
`proc_info.get(...)`: on a dict this reads the key; on a `ProcessInfo`
object or on `None` it raises `AttributeError`, which the `except` at line
304 converts into a denied count (with the exception text as the detail
error and the placeholder name). -/
def collectStep (env : Env) (os : String) (include_denied : Bool)
    (st : CState) (pid : Int) : CState :=
  match get_process_info env os pid with
  | .dict r =>
    if r.accessible then
      { st with processes := st.processes ++ [r], acc := st.acc + 1 }
    else
      deniedStep include_denied st
        { pid := pid
          error := r.error
          name := match r.name with
            | some n => if n = "" then pidPlaceholder pid else n
            | none => pidPlaceholder pid }
  | .obj _ =>
    deniedStep include_denied st
      { pid := pid, error := some attrGetObjMsg, name := pidPlaceholder pid }
  | .pynone =>
    deniedStep include_denied st
      { pid := pid, error := some attrGetNoneMsg, name := pidPlaceholder pid }

/-- `access_info` (lines 317-324). -/
structure AccessInfo where
  total_found_process : Nat
  accessible_processes : Nat
  permission_denied : Nat
  denied_details : Option (List DeniedDetail)
  deriving DecidableEq

/-- `collect_processes` (lines 263-326): enumerate, truncate, loop,
aggregate.  `total_found_process` is `len(pids)` of the *reassigned*
(truncated) `pids` variable; `denied_details` is attached only when
requested and non-empty. -/
def collect_processes (env : Env) (os : String) (include_denied : Bool)
    (maxProcesses : Int) : List RecordDict × AccessInfo :=
  let pids := probedPids env maxProcesses
  let st := pids.foldl (collectStep env os include_denied) {}
  (st.processes,
   { total_found_process := pids.length
     accessible_processes := st.acc
     permission_denied := st.den
     denied_details :=
       if include_denied ∧ ¬ st.denied.isEmpty then some st.denied else none })

/-! ## The host memory probe -/

/-- Environment for `_get_total_memory` (the probe is taken once at
construction, with its own set of external calls). -/
structure MemEnv where
  /-- `sys.platform` -/
  os : String
  /-- darwin: `subprocess.run(sysctl hw.memsize)`: `(returncode, stdout)` -/
  sysctl : Except PyErr (Int × String)
  /-- linux: the lines of `/proc/meminfo` (error = `open`/read raised) -/
  meminfo : Except PyErr (List String)
  /-- windows: `subprocess.run(powershell ...)` stdout (error = raised) -/
  psMem : Except PyErr String
  /-- `int(s)` -/
  pyInt : String → Option Int
  /-- `float(s)` -/
  pyFloat : String → Option ℚ

/-- Python `int(float_value)`: truncation toward zero. -/
def pyIntOfFloat (q : ℚ) : Int := if 0 ≤ q then ⌊q⌋ else -(⌊-q⌋)

/-- The 8 GiB fallback of the outer `except` (line 75). -/
def memFallback : Int := 8 * 1024 * 1024 * 1024

/-- `_get_total_memory` (lines 47-75), result `Option Int` with `none`
modelling Python `None` (the function falling off the end).  Only an
exception reaching the *outer* `try` produces the 8 GiB fallback; a darwin
`sysctl` with non-zero exit, a linux `/proc/meminfo` without a `MemTotal:`
line, and any windows failure (swallowed by the inner `except`) all fall
off the end; an unsupported platform returns `0`. -/
def get_total_memory (env : MemEnv) : Option Int :=
  let osl := pyLower env.os
  if pyIn "darwin" osl then
    match env.sysctl with
    | .error _ => some memFallback
    | .ok (rc, stdout) =>
      if rc = 0 then
        match pySplitChar ':' stdout with
        | [] => some memFallback
        | [_] => some memFallback
        | _ :: second :: _ =>
          match env.pyInt (pyStrip second) with
          | none => some memFallback
          | some n => some n
      else none
  else if pyIn "linux" osl then
    match env.meminfo with
    | .error _ => some memFallback
    | .ok lines =>
      match lines.find? (fun line => pyStarts "MemTotal:" line) with
      | none => none
      | some line =>
        let fields := pySplitWs line
        if fields.length < 2 then some memFallback
        else
          match env.pyInt (fields.getD 1 "") with
          | none => some memFallback
          | some n => some (n * 1024)
  else if pyIn "win" osl then
    match env.psMem with
    | .error _ => none
    | .ok stdout =>
      match env.pyFloat (pyStrip stdout) with
      | none => none
      | some q => some (pyIntOfFloat q)
  else some 0

/-! ## The output formatter (`output_formatter.py`)

The formatter is dynamically typed over the values stored in the record
dicts; we model it generically over a value type `α` together with the
Python `str` rendering used by the CSV writer.  `to_csv` calls
`json.loads(self.to_json(...))`; since `json.loads` of `json.dumps` of the
constructed object recovers the same object, we model `to_json` as
producing the structured object directly (its textual serialization is not
observed by any claim).  A `KeyError` escaping the dict lookups is
modelled as `Except.error` carrying `str(e)`. -/

/-- A Python dict as the formatter sees it: keys in insertion order. -/
abbrev PyDict (α : Type) := List (String × α)

/-- Python dict lookup (later assignments win). -/
def pdGet {α : Type} (d : PyDict α) (k : String) : Option α :=
  (d.reverse.find? (fun kv => kv.1 = k)).map (·.2)

/-- The three `args` attributes the formatter reads. -/
structure FmtArgs where
  advanced : Bool
  includeSystemInfo : Bool
  showDenied : Bool
  deriving DecidableEq

/-- The `data` dict the driver hands the formatter.  `system_info` and
`denied_processes` are `none` when absent or Python-falsy (the source
guards both with `data.get(...)` truthiness). -/
structure FmtData (α : Type) where
  processes : List (PyDict α)
  system_info : Option α
  denied_processes : Option α

/-- The `system_info` value placed in the output: the data value, or the
fixed placeholder dict when the data carries none. -/
inductive SysInfoOut (α : Type) where
  | val (a : α)
  | placeholder
  deriving DecidableEq

/-- The object `to_json` serializes. -/
structure JsonOut (α : Type) where
  processes : List (PyDict α)
  system_info : Option (SysInfoOut α)
  denied_processes : Option α
  deriving DecidableEq

/-- The 5-field reduction of one record (`to_json` lines 9-16), raising
`KeyError` on the first missing key, in evaluation order. -/
def reduceRecord {α : Type} (pr : PyDict α) : Except String (PyDict α) :=
  match pdGet pr "pid" with
  | none => .error (keyErrMsg "pid")
  | some vpid =>
    match pdGet pr "name" with
    | none => .error (keyErrMsg "name")
    | some vname =>
      match pdGet pr "user" with
      | none => .error (keyErrMsg "user")
      | some vuser =>
        match pdGet pr "cpu_percent" with
        | none => .error (keyErrMsg "cpu_percent")
        | some vcpu =>
          match pdGet pr "memory_megabyte" with
          | none => .error (keyErrMsg "memory_megabyte")
          | some vmem =>
            .ok [("pid", vpid), ("name", vname), ("user", vuser),
                 ("cpu_percent", vcpu), ("memory_megabyte", vmem)]

/-- The per-process loop of `to_json` in non-advanced mode. -/
def reduceAll {α : Type} : List (PyDict α) → Except String (List (PyDict α))
  | [] => .ok []
  | pr :: rest =>
    match reduceRecord pr with
    | .error e => .error e
    | .ok r =>
      match reduceAll rest with
      | .error e => .error e
      | .ok rs => .ok (r :: rs)

/-- `OutputFormatter.to_json` (lines 4-23), modelled as the object it
serializes (see the section comment). -/
def to_json {α : Type} (data : FmtData α) (args : FmtArgs) :
    Except String (JsonOut α) :=
  match (if args.advanced then .ok data.processes
         else reduceAll data.processes : Except String (List (PyDict α))) with
  | .error e => .error e
  | .ok ps =>
    .ok { processes := ps
          system_info :=
            if args.includeSystemInfo then
              some (match data.system_info with
                    | some a => .val a
                    | none => .placeholder)
            else none
          denied_processes :=
            if args.showDenied then data.denied_processes else none }

/-- The values of one CSV row, looked up per header key; a missing key
raises `KeyError` (line 35). -/
def rowVals {α : Type} (pr : PyDict α) : List String → Except String (List α)
  | [] => .ok []
  | k :: ks =>
    match pdGet pr k with
    | none => .error (keyErrMsg k)
    | some v =>
      match rowVals pr ks with
      | .error e => .error e
      | .ok vs => .ok (v :: vs)

/-- The CSV data rows (lines 34-35). -/
def buildRows {α : Type} (strFn : α → String) (headers : List String) :
    List (PyDict α) → Except String (List String)
  | [] => .ok []
  | pr :: rest =>
    match rowVals pr headers with
    | .error e => .error e
    | .ok vs =>
      match buildRows strFn headers rest with
      | .error e => .error e
      | .ok rs => .ok (pyJoin "," (vs.map strFn) :: rs)

/-- `OutputFormatter.to_csv` (lines 25-37): re-parse the `to_json` output,
raise `ValueError("No process data passed.")` on an empty process list,
otherwise emit the header row from the first record followed by one joined
row per process. -/
def to_csv {α : Type} (strFn : α → String) (data : FmtData α) (args : FmtArgs) :
    Except String String :=
  match to_json data args with
  | .error e => .error e
  | .ok j =>
    if j.processes.isEmpty then .error "No process data passed."
    else
      let headers := (j.processes.headD []).map Prod.fst
      match buildRows strFn headers j.processes with
      | .error e => .error e
      | .ok rows => .ok (pyJoin "\n" (pyJoin "," headers :: rows))

/-- Decidable equality for `Except` outcomes (used to evaluate concrete
environments). -/
instance exceptDecEq {e a : Type} [DecidableEq e] [DecidableEq a] : DecidableEq (Except e a)
  | .error x, .error y =>
    if h : x = y then .isTrue (by rw [h]) else .isFalse (fun hc => h (Except.error.inj hc))
  | .error _, .ok _ => .isFalse Except.noConfusion
  | .ok _, .error _ => .isFalse Except.noConfusion
  | .ok x, .ok y =>
    if h : x = y then .isTrue (by rw [h]) else .isFalse (fun hc => h (Except.ok.inj hc))

/-! ## Result accessors and environment predicates -/

/-- Whether the resolver handed the engine a process record (a dict or a
`ProcessInfo` object) rather than Python `None`. -/
def ResolveResult.isRec : ResolveResult → Bool
  | .dict _ => true
  | .obj _ => true
  | .pynone => false

/-- The `accessible` field of the returned record (`true` on `None`, which
has no such field; never used there). -/
def ResolveResult.accOf : ResolveResult → Bool
  | .dict r => r.accessible
  | .obj p => p.accessible
  | .pynone => true

/-- The `error` field of the returned record. -/
def ResolveResult.errOf : ResolveResult → Option String
  | .dict r => r.error
  | .obj p => p.error
  | .pynone => none

/-- Python exceptions carry a non-empty `str(e)` rendering.  (A hand-built
exception can render to the empty string; the exceptions psutil,
`subprocess` and `json` actually raise all carry descriptive text, which
this predicate records for the oracles whose message the source copies
verbatim into the record.) -/
def EnvMsgsOk (env : Env) : Prop :=
  (∀ pid e, env.cpu pid = .raised e → e.msg ≠ "") ∧
  (∀ pid e, env.username pid = .error e → e.msg ≠ "") ∧
  (∀ pid e, env.rss pid = .error e → e.msg ≠ "") ∧
  (∀ pid e, env.winRun pid = .error e → e.msg ≠ "") ∧
  (∀ s e, env.jsonParse s = .error e → e.msg ≠ "")

/-- The numeric values the OS hands back are non-negative: psutil CPU
percentages, resident set sizes and the PowerShell working-set figure. -/
def EnvNonneg (env : Env) : Prop :=
  (∀ pid r p a, env.cpu pid = .val r p a → 0 ≤ p) ∧
  (∀ pid v, env.rss pid = .ok v → 0 ≤ v) ∧
  (∀ s j m, env.jsonParse s = .ok j → j.memMB = some m → 0 ≤ m)

/-! ## Concrete test environments (used by the witnesses) -/

/-- A Linux host where every probe succeeds and the enumerator sees the
five PIDs 10, 20, 30, 40, 50 (in scrambled raw order). -/
def envLinuxOk : Env :=
  { pyInt := fun _ => none
    pyFloat := fun _ => none
    cpu := fun _ => .val true 50 2
    username := fun _ => .ok "root"
    rss := fun _ => .ok 1048576
    statusExists := fun _ => true
    statusRead := fun _ => .ok ["Name:\tbash", "State:\tS (sleeping)"]
    psRun := fun _ => .ok (0, "")
    winRun := fun _ => .ok (0, "")
    jsonParse := fun _ => .error ⟨false, "x"⟩
    rawPids := [10, 30, 50, 20, 40] }

/-- The record `envLinuxOk` resolves for PID 50. -/
def rec50 : RecordDict :=
  { pid := 50
    name := some "bash"
    user := some "root"
    cpu_percent := 25
    memory_megabyte := 1
    status := some "S (sleeping)"
    accessible := true
    error := none }

/-- A darwin host whose `sysctl` invocation raises. -/
def memEnvRaise : MemEnv :=
  { os := "darwin"
    sysctl := .error ⟨false, "boom"⟩
    meminfo := .ok []
    psMem := .ok ""
    pyInt := fun _ => none
    pyFloat := fun _ => none }

/-- A darwin host whose `sysctl` runs but exits with status 1. -/
def memEnvExitOne : MemEnv :=
  { os := "darwin"
    sysctl := .ok (1, "")
    meminfo := .ok []
    psMem := .ok ""
    pyInt := fun _ => none
    pyFloat := fun _ => none }

/-- Formatter arguments selecting the advanced (pass-through) record shape. -/
def fmtArgsAdv : FmtArgs :=
  { advanced := true, includeSystemInfo := false, showDenied := false }

/-- A one-record report for the formatter. -/
def fmtDataOne : FmtData String :=
  { processes := [[("pid", "1"), ("name", "a")]]
    system_info := none
    denied_processes := none }

/-- An empty report for the formatter. -/
def fmtDataEmpty : FmtData String :=
  { processes := []
    system_info := none
    denied_processes := none }

/-- The object `to_json` produces for `fmtDataOne` under `fmtArgsAdv`. -/
def jsonOutOne : JsonOut String :=
  { processes := [[("pid", "1"), ("name", "a")]]
    system_info := none
    denied_processes := none }

/-- The object `to_json` produces for `fmtDataEmpty` under `fmtArgsAdv`. -/
def jsonOutEmpty : JsonOut String :=
  { processes := []
    system_info := none
    denied_processes := none }

/-! ## Helper lemmas -/

theorem mem_insDesc {x b : Int} {l : List Int} :
    b ∈ insDesc x l ↔ b = x ∨ b ∈ l := by
  induction l with
  | nil => simp [insDesc]
  | cons y ys ih =>
    by_cases h : x ≥ y <;> simp [insDesc, h, ih] <;> tauto

theorem sorted_insDesc {x : Int} {l : List Int} (hl : l.Sorted (· ≥ ·)) :
    (insDesc x l).Sorted (· ≥ ·) := by
  induction l with
  | nil => simp [insDesc]
  | cons y ys ih =>
    have hl' := List.sorted_cons.mp hl
    by_cases h : x ≥ y
    · rw [insDesc]
      simp only [h, if_true]
      rw [List.sorted_cons]
      refine ⟨?_, hl⟩
      intro b hb
      rcases List.mem_cons.mp hb with rfl | hb
      · exact h
      · exact le_trans (hl'.1 b hb) h
    · rw [insDesc]
      simp only [h, if_false]
      rw [List.sorted_cons]
      refine ⟨?_, ih hl'.2⟩
      intro b hb
      rcases mem_insDesc.mp hb with rfl | hb
      · omega
      · exact hl'.1 b hb

theorem sorted_sortDesc (l : List Int) : (sortDesc l).Sorted (· ≥ ·) := by
  induction l with
  | nil => simp [sortDesc]
  | cons x xs ih => exact sorted_insDesc ih

theorem length_insDesc (x : Int) (l : List Int) :
    (insDesc x l).length = l.length + 1 := by
  induction l with
  | nil => rfl
  | cons y ys ih => by_cases h : x ≥ y <;> simp [insDesc, h, ih]

theorem length_sortDesc (l : List Int) : (sortDesc l).length = l.length := by
  induction l with
  | nil => rfl
  | cons x xs ih =>
    show (insDesc x (sortDesc xs)).length = xs.length + 1
    rw [length_insDesc, ih]

theorem pyRound2_nonneg {q : ℚ} (h : 0 ≤ q) : 0 ≤ pyRound2 q := by
  unfold pyRound2
  have h100 : (0 : ℚ) ≤ q * 100 := by positivity
  have hr : (0 : ℤ) ≤ round (q * 100) := by
    rw [round_eq]
    exact Int.floor_nonneg.mpr (by linarith)
  positivity

theorem pyRound2_idem (q : ℚ) : pyRound2 (pyRound2 q) = pyRound2 q := by
  unfold pyRound2
  have h : ((round (q * 100) : ℤ) : ℚ) / 100 * 100 = ((round (q * 100) : ℤ) : ℚ) := by
    field_simp
  rw [h, round_intCast]

theorem probedPids_pos (env : Env) (N : Int) (hN : 0 < N) :
    probedPids env N = (get_pid_list env).take N.toNat := by
  unfold probedPids
  simp [hN]

theorem probedPids_nonpos (env : Env) (N : Int) (hN : N ≤ 0) :
    probedPids env N = get_pid_list env := by
  unfold probedPids
  simp [show ¬ N > 0 by omega]

theorem length_probedPids_pos (env : Env) (N : Int) (hN : 0 < N) :
    (probedPids env N).length = min N.toNat env.rawPids.length := by
  rw [probedPids_pos env N hN, List.length_take]
  unfold get_pid_list
  rw [length_sortDesc]

/-! ## Engine loop invariants -/

theorem collectStep_counts (env : Env) (os : String) (d : Bool) (st : CState) (pid : Int) :
    (collectStep env os d st pid).acc + (collectStep env os d st pid).den
      = st.acc + st.den + 1 := by
  rcases h : get_process_info env os pid with r | p | _ <;>
    simp only [collectStep, deniedStep, h]
  · by_cases hr : r.accessible <;> simp [hr] <;> omega
  · omega
  · omega

theorem collect_counts (env : Env) (os : String) (d : Bool) (l : List Int) :
    ∀ st : CState,
      (l.foldl (collectStep env os d) st).acc + (l.foldl (collectStep env os d) st).den
        = st.acc + st.den + l.length := by
  induction l with
  | nil => intro st; simp
  | cons x xs ih =>
    intro st
    rw [List.foldl_cons, ih, collectStep_counts]
    simp
    omega

theorem collectStep_mem (env : Env) (os : String) (d : Bool) (st : CState)
    (pid : Int) (r : RecordDict) (h : r ∈ (collectStep env os d st pid).processes) :
    r ∈ st.processes ∨ (get_process_info env os pid = .dict r ∧ r.accessible = true) := by
  rcases hg : get_process_info env os pid with r' | p | _ <;>
    simp only [collectStep, deniedStep, hg] at h
  · by_cases hr : r'.accessible
    · simp only [hr, if_true] at h
      rcases List.mem_append.mp h with h | h
      · exact Or.inl h
      · right
        rcases List.mem_singleton.mp h with rfl
        exact ⟨rfl, hr⟩
    · simp only [hr, if_false] at h
      exact Or.inl h
  · exact Or.inl h
  · exact Or.inl h

theorem collect_mem (env : Env) (os : String) (d : Bool) (l : List Int) :
    ∀ (st : CState) (r : RecordDict), r ∈ (l.foldl (collectStep env os d) st).processes →
      r ∈ st.processes ∨
        ∃ pid, pid ∈ l ∧ get_process_info env os pid = .dict r ∧ r.accessible = true := by
  induction l with
  | nil => intro st r h; exact Or.inl h
  | cons x xs ih =>
    intro st r h
    rw [List.foldl_cons] at h
    rcases ih _ r h with h1 | ⟨pid, hmem, hres⟩
    · rcases collectStep_mem env os d st x r h1 with h2 | h2
      · exact Or.inl h2
      · exact Or.inr ⟨x, List.mem_cons_self x xs, h2⟩
    · exact Or.inr ⟨pid, List.mem_cons_of_mem x hmem, hres⟩

theorem str_append_ne_empty (s t : String) (h : s.length ≠ 0) : s ++ t ≠ "" := by
  intro he
  have := congrArg String.length he
  rw [String.length_append] at this
  simp at this
  omega

theorem linuxResolve_disc (pid : Int) (statRes : Option (List (String × String)))
    (usernRes : Except PyErr String) (cpuRes rssRes : Except PyErr ℚ) :
    (linuxResolve pid statRes usernRes cpuRes rssRes).isRec = true ∧
    ((linuxResolve pid statRes usernRes cpuRes rssRes).accOf = true →
      (linuxResolve pid statRes usernRes cpuRes rssRes).errOf = none) ∧
    ((linuxResolve pid statRes usernRes cpuRes rssRes).accOf = false →
      ((linuxResolve pid statRes usernRes cpuRes rssRes).errOf).isSome = true) := by
  rcases statRes with _ | stat
  · simp [linuxResolve, ResolveResult.isRec, ResolveResult.accOf, ResolveResult.errOf]
  · by_cases hemp : stat.isEmpty
    · simp [linuxResolve, hemp, ResolveResult.isRec, ResolveResult.accOf, ResolveResult.errOf]
    · rcases hnm : dictGet stat "Name" with _ | nm
      · simp [linuxResolve, hemp, hnm, ResolveResult.isRec, ResolveResult.accOf,
          ResolveResult.errOf, linuxCatch, ProcessInfo.to_dict]
      · rcases hst : dictGet stat "State" with _ | st
        · simp [linuxResolve, hemp, hnm, hst, ResolveResult.isRec, ResolveResult.accOf,
            ResolveResult.errOf, linuxCatch, ProcessInfo.to_dict]
        · rcases usernRes with e | u
          · simp [linuxResolve, hemp, hnm, hst, ResolveResult.isRec, ResolveResult.accOf,
              ResolveResult.errOf, linuxCatch, ProcessInfo.to_dict]
          · rcases cpuRes with e | cpu
            · simp [linuxResolve, hemp, hnm, hst, ResolveResult.isRec, ResolveResult.accOf,
                ResolveResult.errOf, linuxCatch, ProcessInfo.to_dict]
            · rcases rssRes with e | rssv
              · simp [linuxResolve, hemp, hnm, hst, ResolveResult.isRec, ResolveResult.accOf,
                  ResolveResult.errOf, linuxCatch, ProcessInfo.to_dict]
              · simp [linuxResolve, hemp, hnm, hst, ResolveResult.isRec, ResolveResult.accOf,
                  ResolveResult.errOf, ProcessInfo.to_dict]

theorem linuxResolve_err_nonempty (pid : Int) (statRes : Option (List (String × String)))
    (usernRes : Except PyErr String) (cpuRes rssRes : Except PyErr ℚ)
    (hu : ∀ e, usernRes = .error e → e.msg ≠ "")
    (hc : ∀ e, cpuRes = .error e → e.msg ≠ "")
    (hr : ∀ e, rssRes = .error e → e.msg ≠ "")
    (hacc : (linuxResolve pid statRes usernRes cpuRes rssRes).accOf = false) :
    ∃ s, (linuxResolve pid statRes usernRes cpuRes rssRes).errOf = some s ∧ s ≠ "" := by
  rcases statRes with _ | stat
  · exact ⟨"Cannot read /proc/pid/stat", by simp [linuxResolve, ResolveResult.errOf], by decide⟩
  · by_cases hemp : stat.isEmpty
    · exact ⟨"Cannot read /proc/pid/stat", by simp [linuxResolve, hemp, ResolveResult.errOf],
        by decide⟩
    · rcases hnm : dictGet stat "Name" with _ | nm
      · exact ⟨keyErrMsg "Name", by simp [linuxResolve, hemp, hnm, ResolveResult.errOf,
          linuxCatch, ProcessInfo.to_dict], by decide⟩
      · rcases hst : dictGet stat "State" with _ | st
        · exact ⟨keyErrMsg "State", by simp [linuxResolve, hemp, hnm, hst, ResolveResult.errOf,
            linuxCatch, ProcessInfo.to_dict], by decide⟩
        · rcases usernRes with e | u
          · refine ⟨if e.isPerm then "Permission denied" else e.msg,
              by simp [linuxResolve, hemp, hnm, hst, ResolveResult.errOf, linuxCatch,
                ProcessInfo.to_dict], ?_⟩
            by_cases hp : e.isPerm
            · simp [hp]
            · simp [hp]
              exact hu e rfl
          · rcases cpuRes with e | cpu
            · refine ⟨if e.isPerm then "Permission denied" else e.msg,
                by simp [linuxResolve, hemp, hnm, hst, ResolveResult.errOf, linuxCatch,
                  ProcessInfo.to_dict], ?_⟩
              by_cases hp : e.isPerm
              · simp [hp]
              · simp [hp]
                exact hc e rfl
            · rcases rssRes with e | rssv
              · refine ⟨if e.isPerm then "Permission denied" else e.msg,
                  by simp [linuxResolve, hemp, hnm, hst, ResolveResult.errOf, linuxCatch,
                    ProcessInfo.to_dict], ?_⟩
                by_cases hp : e.isPerm
                · simp [hp]
                · simp [hp]
                  exact hr e rfl
              · exfalso
                simp [linuxResolve, hemp, hnm, hst, ResolveResult.accOf,
                  ProcessInfo.to_dict] at hacc

theorem linuxResolve_dict_fields (pid : Int) (statRes : Option (List (String × String)))
    (usernRes : Except PyErr String) (cpuRes rssRes : Except PyErr ℚ)
    (hc : ∀ v, cpuRes = .ok v → 0 ≤ v)
    (hr : ∀ v, rssRes = .ok v → 0 ≤ v)
    (r : RecordDict) (h : linuxResolve pid statRes usernRes cpuRes rssRes = .dict r) :
    (∃ a, 0 ≤ a ∧ r.cpu_percent = pyRound2 a) ∧
    (∃ b, 0 ≤ b ∧ r.memory_megabyte = pyRound2 b) := by
  rcases statRes with _ | stat
  · simp [linuxResolve] at h
  · by_cases hemp : stat.isEmpty
    · simp [linuxResolve, hemp] at h
    · rcases hnm : dictGet stat "Name" with _ | nm
      · simp [linuxResolve, hemp, hnm, linuxCatch, ProcessInfo.to_dict] at h
        subst h
        exact ⟨⟨0, le_refl 0, by simp⟩, ⟨0, le_refl 0, by simp⟩⟩
      · rcases hst : dictGet stat "State" with _ | st
        · simp [linuxResolve, hemp, hnm, hst, linuxCatch, ProcessInfo.to_dict] at h
          subst h
          exact ⟨⟨0, le_refl 0, by simp⟩, ⟨0, le_refl 0, by simp⟩⟩
        · rcases usernRes with e | u
          · simp [linuxResolve, hemp, hnm, hst, linuxCatch, ProcessInfo.to_dict] at h
            subst h
            exact ⟨⟨0, le_refl 0, by simp⟩, ⟨0, le_refl 0, by simp⟩⟩
          · rcases cpuRes with e | cpu
            · simp [linuxResolve, hemp, hnm, hst, linuxCatch, ProcessInfo.to_dict] at h
              subst h
              exact ⟨⟨0, le_refl 0, by simp⟩, ⟨0, le_refl 0, by simp⟩⟩
            · rcases rssRes with e | rssv
              · simp [linuxResolve, hemp, hnm, hst, linuxCatch, ProcessInfo.to_dict] at h
                subst h
                exact ⟨⟨cpu, hc cpu rfl, by simp⟩, ⟨0, le_refl 0, by simp⟩⟩
              · simp [linuxResolve, hemp, hnm, hst, ProcessInfo.to_dict] at h
                subst h
                refine ⟨⟨cpu, hc cpu rfl, by simp⟩,
                  ⟨rssv / (1024 * 1024), div_nonneg (hr rssv rfl) (by norm_num), by simp⟩⟩

theorem macosResolve_disc (pid : Int) (psRes : Except PyErr (Int × String))
    (pyIntF : String → Option Int) (pyFloatF : String → Option ℚ) :
    (macosResolve pid psRes pyIntF pyFloatF).isRec = true ∧
    ((macosResolve pid psRes pyIntF pyFloatF).accOf = true →
      (macosResolve pid psRes pyIntF pyFloatF).errOf = none) ∧
    ((macosResolve pid psRes pyIntF pyFloatF).accOf = false →
      ((macosResolve pid psRes pyIntF pyFloatF).errOf).isSome = true) := by
  rcases psRes with e | ⟨rc, out⟩
  · simp [macosResolve, ResolveResult.isRec, ResolveResult.accOf, ResolveResult.errOf]
  · by_cases h1 : rc ≠ 0 ∨ pyStrip out = ""
    · simp [macosResolve, h1, ResolveResult.isRec, ResolveResult.accOf, ResolveResult.errOf]
    · by_cases h2 : (pySplitChar '\n' (pyStrip out)).length < 2
      · simp [macosResolve, h1, h2, ResolveResult.isRec, ResolveResult.accOf,
          ResolveResult.errOf]
      · by_cases h3 : (pySplitWs (pyStrip
            ((pySplitChar '\n' (pyStrip out))[1]?.getD ""))).length < 5
        · simp [macosResolve, h1, h2, h3, ResolveResult.isRec, ResolveResult.accOf,
            ResolveResult.errOf]
        · rcases h4 : pyIntF ((pySplitWs (pyStrip
              ((pySplitChar '\n' (pyStrip out))[1]?.getD "")))[0]?.getD "") with _ | pidv
          · simp [macosResolve, h1, h2, h3, h4, ResolveResult.isRec, ResolveResult.accOf,
              ResolveResult.errOf]
          · rcases h5 : pyFloatF ((pySplitWs (pyStrip
                ((pySplitChar '\n' (pyStrip out))[1]?.getD "")))[2]?.getD "") with _ | cpuv
            · simp [macosResolve, h1, h2, h3, h4, h5, ResolveResult.isRec,
                ResolveResult.accOf, ResolveResult.errOf]
            · rcases h6 : pyFloatF ((pySplitWs (pyStrip
                  ((pySplitChar '\n' (pyStrip out))[1]?.getD "")))[3]?.getD "") with _ | memv
              · simp [macosResolve, h1, h2, h3, h4, h5, h6, ResolveResult.isRec,
                  ResolveResult.accOf, ResolveResult.errOf]
              · simp [macosResolve, h1, h2, h3, h4, h5, h6, ResolveResult.isRec,
                  ResolveResult.accOf, ResolveResult.errOf]

theorem macosResolve_not_dict (pid : Int) (psRes : Except PyErr (Int × String))
    (pyIntF : String → Option Int) (pyFloatF : String → Option ℚ) (r : RecordDict)
    (h : macosResolve pid psRes pyIntF pyFloatF = .dict r) : False := by
  rcases psRes with e | ⟨rc, out⟩ <;> simp [macosResolve] at h

theorem macosResolve_err_nonempty (pid : Int) (psRes : Except PyErr (Int × String))
    (pyIntF : String → Option Int) (pyFloatF : String → Option ℚ)
    (hacc : (macosResolve pid psRes pyIntF pyFloatF).accOf = false) :
    ∃ s, (macosResolve pid psRes pyIntF pyFloatF).errOf = some s ∧ s ≠ "" := by
  have hpre : ("Unexpected error: " : String).length ≠ 0 := by decide
  rcases psRes with e | ⟨rc, out⟩
  · exact ⟨"Unexpected error: " ++ e.msg, by simp [macosResolve, ResolveResult.errOf],
      str_append_ne_empty _ _ hpre⟩
  · by_cases h1 : rc ≠ 0 ∨ pyStrip out = ""
    · exact ⟨"Process not found or permission denied",
        by simp [macosResolve, h1, ResolveResult.errOf], by decide⟩
    · by_cases h2 : (pySplitChar '\n' (pyStrip out)).length < 2
      · exact ⟨"Invalid ps output", by simp [macosResolve, h1, h2, ResolveResult.errOf],
          by decide⟩
      · by_cases h3 : (pySplitWs (pyStrip
            ((pySplitChar '\n' (pyStrip out))[1]?.getD ""))).length < 5
        · exact ⟨"Invalid ps output format",
            by simp [macosResolve, h1, h2, h3, ResolveResult.errOf], by decide⟩
        · rcases h4 : pyIntF ((pySplitWs (pyStrip
              ((pySplitChar '\n' (pyStrip out))[1]?.getD "")))[0]?.getD "") with _ | pidv
          · exact ⟨"Unexpected error: " ++ intLitErrMsg ((pySplitWs (pyStrip
                ((pySplitChar '\n' (pyStrip out))[1]?.getD "")))[0]?.getD ""),
              by simp [macosResolve, h1, h2, h3, h4, ResolveResult.errOf],
              str_append_ne_empty _ _ hpre⟩
          · rcases h5 : pyFloatF ((pySplitWs (pyStrip
                ((pySplitChar '\n' (pyStrip out))[1]?.getD "")))[2]?.getD "") with _ | cpuv
            · exact ⟨"Unexpected error: " ++ floatLitErrMsg ((pySplitWs (pyStrip
                  ((pySplitChar '\n' (pyStrip out))[1]?.getD "")))[2]?.getD ""),
                by simp [macosResolve, h1, h2, h3, h4, h5, ResolveResult.errOf],
                str_append_ne_empty _ _ hpre⟩
            · rcases h6 : pyFloatF ((pySplitWs (pyStrip
                  ((pySplitChar '\n' (pyStrip out))[1]?.getD "")))[3]?.getD "") with _ | memv
              · exact ⟨"Unexpected error: " ++ floatLitErrMsg ((pySplitWs (pyStrip
                    ((pySplitChar '\n' (pyStrip out))[1]?.getD "")))[3]?.getD ""),
                  by simp [macosResolve, h1, h2, h3, h4, h5, h6, ResolveResult.errOf],
                  str_append_ne_empty _ _ hpre⟩
              · exact ⟨"Unexpected error: " ++ attrCommandMsg,
                  by simp [macosResolve, h1, h2, h3, h4, h5, h6, ResolveResult.errOf],
                  str_append_ne_empty _ _ hpre⟩

theorem pyRound2_zero : pyRound2 0 = 0 := by
  simp [pyRound2]

theorem winResolve_disc (pid : Int) (winRes : Except PyErr (Int × String))
    (jsonF : String → Except PyErr WinJson) (cpuRes : Except PyErr ℚ) :
    (winResolve pid winRes jsonF cpuRes).isRec = true ∧
    ((winResolve pid winRes jsonF cpuRes).accOf = true →
      (winResolve pid winRes jsonF cpuRes).errOf = none) ∧
    ((winResolve pid winRes jsonF cpuRes).accOf = false →
      ((winResolve pid winRes jsonF cpuRes).errOf).isSome = true) := by
  rcases winRes with e | ⟨rc, out⟩
  · simp [winResolve, winTryBody, ResolveResult.isRec, ResolveResult.accOf,
      ResolveResult.errOf, ProcessInfo.to_dict]
  · by_cases h1 : rc = 0 ∧ pyStrip out ≠ ""
    · rcases hj : jsonF (pyStrip out) with e | j
      · simp [winResolve, winTryBody, h1, hj, ResolveResult.isRec, ResolveResult.accOf,
          ResolveResult.errOf, ProcessInfo.to_dict]
      · rcases cpuRes with e | cpu
        · simp [winResolve, winTryBody, h1, hj, ResolveResult.isRec, ResolveResult.accOf,
            ResolveResult.errOf, ProcessInfo.to_dict]
        · rcases j with ⟨jn, ju, jm⟩
          rcases jn with _ | nm
          · simp [winResolve, winTryBody, h1, hj, ResolveResult.isRec, ResolveResult.accOf,
              ResolveResult.errOf, ProcessInfo.to_dict]
          · by_cases hnm : nm = ""
            · simp [winResolve, winTryBody, h1, hj, hnm, ResolveResult.isRec,
                ResolveResult.accOf, ResolveResult.errOf, ProcessInfo.to_dict]
            · simp [winResolve, winTryBody, h1, hj, hnm, ResolveResult.isRec,
                ResolveResult.accOf, ResolveResult.errOf, ProcessInfo.to_dict]
    · simp [winResolve, winTryBody, h1, ResolveResult.isRec, ResolveResult.accOf,
        ResolveResult.errOf, ProcessInfo.to_dict]

theorem winResolve_err_nonempty (pid : Int) (winRes : Except PyErr (Int × String))
    (jsonF : String → Except PyErr WinJson) (cpuRes : Except PyErr ℚ)
    (hw : ∀ e, winRes = .error e → e.msg ≠ "")
    (hjs : ∀ x e, jsonF x = .error e → e.msg ≠ "")
    (hc : ∀ e, cpuRes = .error e → e.msg ≠ "")
    (hacc : (winResolve pid winRes jsonF cpuRes).accOf = false) :
    ∃ s, (winResolve pid winRes jsonF cpuRes).errOf = some s ∧ s ≠ "" := by
  rcases winRes with e | ⟨rc, out⟩
  · exact ⟨e.msg, by simp [winResolve, winTryBody, ResolveResult.errOf, ProcessInfo.to_dict],
      hw e rfl⟩
  · by_cases h1 : rc = 0 ∧ pyStrip out ≠ ""
    · rcases hj : jsonF (pyStrip out) with e | j
      · exact ⟨e.msg, by simp [winResolve, winTryBody, h1, hj, ResolveResult.errOf,
          ProcessInfo.to_dict], hjs _ e hj⟩
      · rcases cpuRes with e | cpu
        · exact ⟨e.msg, by simp [winResolve, winTryBody, h1, hj, ResolveResult.errOf,
            ProcessInfo.to_dict], hc e rfl⟩
        · rcases j with ⟨jn, ju, jm⟩
          rcases jn with _ | nm
          · exact ⟨"Unable to retrieve process information",
              by simp [winResolve, winTryBody, h1, hj, ResolveResult.errOf,
                ProcessInfo.to_dict], by decide⟩
          · by_cases hnm : nm = ""
            · exact ⟨"Unable to retrieve process information",
                by simp [winResolve, winTryBody, h1, hj, hnm, ResolveResult.errOf,
                  ProcessInfo.to_dict], by decide⟩
            · exfalso
              simp [winResolve, winTryBody, h1, hj, hnm, ResolveResult.accOf,
                ProcessInfo.to_dict] at hacc
    · exact ⟨"Unable to retrieve process information",
        by simp [winResolve, winTryBody, h1, ResolveResult.errOf, ProcessInfo.to_dict],
        by decide⟩

theorem winResolve_dict_fields (pid : Int) (winRes : Except PyErr (Int × String))
    (jsonF : String → Except PyErr WinJson) (cpuRes : Except PyErr ℚ)
    (hcv : ∀ v, cpuRes = .ok v → 0 ≤ v)
    (hmv : ∀ x j m, jsonF x = .ok j → j.memMB = some m → 0 ≤ m)
    (r : RecordDict) (h : winResolve pid winRes jsonF cpuRes = .dict r) :
    (∃ a, 0 ≤ a ∧ r.cpu_percent = pyRound2 a) ∧
    (∃ b, 0 ≤ b ∧ r.memory_megabyte = pyRound2 b) := by
  rcases winRes with e | ⟨rc, out⟩
  · simp [winResolve, winTryBody, ProcessInfo.to_dict] at h
    subst h
    exact ⟨⟨0, le_refl 0, by simp⟩, ⟨0, le_refl 0, by simp⟩⟩
  · by_cases h1 : rc = 0 ∧ pyStrip out ≠ ""
    · rcases hj : jsonF (pyStrip out) with e | j
      · simp [winResolve, winTryBody, h1, hj, ProcessInfo.to_dict] at h
        subst h
        exact ⟨⟨0, le_refl 0, by simp⟩, ⟨0, le_refl 0, by simp⟩⟩
      · rcases cpuRes with e | cpu
        · simp [winResolve, winTryBody, h1, hj, ProcessInfo.to_dict] at h
          subst h
          exact ⟨⟨0, le_refl 0, by simp⟩, ⟨0, le_refl 0, by simp⟩⟩
        · rcases j with ⟨jn, ju, jm⟩
          have hcpu : 0 ≤ cpu := hcv cpu rfl
          rcases jm with _ | m
          · rcases jn with _ | nm
            · simp [winResolve, winTryBody, h1, hj, ProcessInfo.to_dict] at h
              subst h
              exact ⟨⟨cpu, hcpu, by simp⟩, ⟨0, le_refl 0, by simp [pyRound2_zero]⟩⟩
            · by_cases hnm : nm = ""
              · simp [winResolve, winTryBody, h1, hj, hnm, ProcessInfo.to_dict] at h
                subst h
                exact ⟨⟨cpu, hcpu, by simp⟩, ⟨0, le_refl 0, by simp [pyRound2_zero]⟩⟩
              · simp [winResolve, winTryBody, h1, hj, hnm, ProcessInfo.to_dict] at h
                subst h
                exact ⟨⟨cpu, hcpu, by simp⟩, ⟨0, le_refl 0, by simp [pyRound2_zero]⟩⟩
          · have hm : (0:ℚ) ≤ m := hmv _ _ m hj rfl
            rcases jn with _ | nm
            · simp [winResolve, winTryBody, h1, hj, ProcessInfo.to_dict] at h
              subst h
              exact ⟨⟨cpu, hcpu, by simp⟩, ⟨m, hm, by simp⟩⟩
            · by_cases hnm : nm = ""
              · simp [winResolve, winTryBody, h1, hj, hnm, ProcessInfo.to_dict] at h
                subst h
                exact ⟨⟨cpu, hcpu, by simp⟩, ⟨m, hm, by simp⟩⟩
              · simp [winResolve, winTryBody, h1, hj, hnm, ProcessInfo.to_dict] at h
                subst h
                exact ⟨⟨cpu, hcpu, by simp⟩, ⟨m, hm, by simp⟩⟩
    · simp [winResolve, winTryBody, h1, ProcessInfo.to_dict] at h
      subst h
      exact ⟨⟨0, le_refl 0, by simp⟩, ⟨0, le_refl 0, by simp⟩⟩

theorem getCpuUsage_err_msg (env : Env) (pid : Int)
    (hm : ∀ pid e, env.cpu pid = .raised e → e.msg ≠ "") :
    ∀ e, getCpuUsage env pid = .error e → e.msg ≠ "" := by
  intro e h
  unfold getCpuUsage at h
  rcases hc : env.cpu pid with _ | e' | ⟨run, per, aff⟩ <;> rw [hc] at h
  · simp at h
  · simp at h
    exact h ▸ hm pid e' hc
  · by_cases hr : run
    · by_cases ha : aff = 0
      · simp [hr, ha] at h
        rw [← h]
        decide
      · simp [hr, ha] at h
    · simp [hr] at h

theorem getCpuUsage_nonneg (env : Env) (pid : Int)
    (hp : ∀ pid r p a, env.cpu pid = .val r p a → 0 ≤ p) :
    ∀ v, getCpuUsage env pid = .ok v → 0 ≤ v := by
  intro v h
  unfold getCpuUsage at h
  rcases hc : env.cpu pid with _ | e' | ⟨run, per, aff⟩ <;> rw [hc] at h
  · simp at h
    rw [← h]
  · simp at h
  · by_cases hr : run
    · by_cases ha : aff = 0
      · simp [hr, ha] at h
      · simp [hr, ha] at h
        rw [← h]
        exact div_nonneg (hp pid run per aff hc) (by positivity)
    · simp [hr] at h
      rw [← h]

/-- **C1**: for every PID on any of the three supported platforms, the
metric source operation `get_process_info` returns a process record and
never raises or returns `None`: whatever the environment does (every
permission, lookup, parse or subprocess failure mode the oracles can
express), the result is a record, and a record classified inaccessible
carries an error message.  The Lean functions are total over all
environments, which is the no-exception-propagation guarantee. -/
theorem metric_source_always_returns_record (env : Env) (os : String) (pid : Int)
    (hos : pyStarts "linux" os = true ∨ os = "darwin" ∨ pyIn "win" os = true) :
    (get_process_info env os pid).isRec = true ∧
    ((get_process_info env os pid).accOf = false →
      ((get_process_info env os pid).errOf).isSome = true) := by
  unfold get_process_info
  by_cases h1 : pyStarts "linux" os = true
  · rw [if_pos h1]
    unfold get_process_info_linux
    have hd := linuxResolve_disc pid (readProcStatus env pid) (env.username pid)
      (getCpuUsage env pid) (env.rss pid)
    exact ⟨hd.1, hd.2.2⟩
  · rw [if_neg h1]
    by_cases h2 : os = "darwin"
    · rw [if_pos h2]
      unfold get_process_info_macos
      have hd := macosResolve_disc pid (env.psRun pid) env.pyInt env.pyFloat
      exact ⟨hd.1, hd.2.2⟩
    · rw [if_neg h2]
      by_cases h3 : pyIn "win" os = true
      · rw [if_pos h3]
        unfold get_process_info_windows
        have hd := winResolve_disc pid (env.winRun pid) env.jsonParse (getCpuUsage env pid)
        exact ⟨hd.1, hd.2.2⟩
      · rcases hos with h | h | h
        · exact absurd h h1
        · exact absurd h h2
        · exact absurd h h3

/-- **C4**: every record the metric source produces with `accessible=true`
has `error = None`, and every record with `accessible=false` has a
non-empty `error` message (given that the exception texts the environment
supplies — which the source copies verbatim via `str(e)` — are themselves
non-empty). -/
theorem record_error_discipline (env : Env) (os : String) (pid : Int)
    (hos : pyStarts "linux" os = true ∨ os = "darwin" ∨ pyIn "win" os = true)
    (hmsg : EnvMsgsOk env) :
    ((get_process_info env os pid).accOf = true → (get_process_info env os pid).errOf = none) ∧
    ((get_process_info env os pid).accOf = false →
      ∃ s, (get_process_info env os pid).errOf = some s ∧ s ≠ "") := by
  obtain ⟨hcpu, husr, hrss, hwin, hjson⟩ := hmsg
  unfold get_process_info
  by_cases h1 : pyStarts "linux" os = true
  · rw [if_pos h1]
    unfold get_process_info_linux
    have hd := linuxResolve_disc pid (readProcStatus env pid) (env.username pid)
      (getCpuUsage env pid) (env.rss pid)
    refine ⟨hd.2.1, ?_⟩
    intro hacc
    exact linuxResolve_err_nonempty pid _ _ _ _ (fun e he => husr pid e he)
      (getCpuUsage_err_msg env pid hcpu) (fun e he => hrss pid e he) hacc
  · rw [if_neg h1]
    by_cases h2 : os = "darwin"
    · rw [if_pos h2]
      unfold get_process_info_macos
      have hd := macosResolve_disc pid (env.psRun pid) env.pyInt env.pyFloat
      refine ⟨hd.2.1, ?_⟩
      intro hacc
      exact macosResolve_err_nonempty pid _ _ _ hacc
    · rw [if_neg h2]
      by_cases h3 : pyIn "win" os = true
      · rw [if_pos h3]
        unfold get_process_info_windows
        have hd := winResolve_disc pid (env.winRun pid) env.jsonParse (getCpuUsage env pid)
        refine ⟨hd.2.1, ?_⟩
        intro hacc
        exact winResolve_err_nonempty pid _ _ _ (fun e he => hwin pid e he)
          (fun x e he => hjson x e he) (getCpuUsage_err_msg env pid hcpu) hacc
      · rcases hos with h | h | h
        · exact absurd h h1
        · exact absurd h h2
        · exact absurd h h3

/-- **C3**: in every collection pass, `accessible_count + denied_count`
equals the number of PIDs actually probed: each iteration of the per-PID
loop increments exactly one of the two counters, including when the
resolver hands back a `ProcessInfo` object or `None` and the engine throws
inside the loop (the `except` path counts it as denied). -/
theorem access_summary_partition (env : Env) (os : String) (d : Bool) (maxP : Int) :
    (collect_processes env os d maxP).2.accessible_processes +
      (collect_processes env os d maxP).2.permission_denied
      = (probedPids env maxP).length := by
  have h := collect_counts env os d (probedPids env maxP) {}
  simpa using h

/-- **C2**: for `max_results = N > 0`, `collect` probes exactly
`min(N, number of enumerated PIDs)` PIDs; the truncation is applied to the
enumerator output (already sorted descending) before any resolution, and
the probed sequence is in descending numeric order. -/
theorem collect_probes_min_descending (env : Env) (os : String) (d : Bool)
    (N : Int) (hN : 0 < N) :
    probedPids env N = (get_pid_list env).take N.toNat ∧
    (probedPids env N).length = min N.toNat env.rawPids.length ∧
    (probedPids env N).Sorted (· ≥ ·) ∧
    (collect_processes env os d N).2.accessible_processes +
      (collect_processes env os d N).2.permission_denied
      = min N.toNat env.rawPids.length := by
  refine ⟨probedPids_pos env N hN, length_probedPids_pos env N hN, ?_, ?_⟩
  · rw [probedPids_pos env N hN]
    unfold get_pid_list
    exact (sorted_sortDesc env.rawPids).sublist (List.take_sublist _ _)
  · rw [← length_probedPids_pos env N hN]
    have h := collect_counts env os d (probedPids env N) {}
    simpa using h

/-- **C9**: the process list returned by `collect` contains only records
with `accessible = true`; denied PIDs contribute to the counters and
optional details only, never to the returned sequence. -/
theorem returned_records_all_accessible (env : Env) (os : String) (d : Bool) (maxP : Int) :
    ∀ r ∈ (collect_processes env os d maxP).1, r.accessible = true := by
  intro r hr
  rcases collect_mem env os d (probedPids env maxP) {} r hr with h | ⟨pid, _, _, hacc⟩
  · exact absurd h (List.not_mem_nil r)
  · exact hacc

/-- **C7**: every record returned by the engine has `cpu_percent` and
`memory_megabyte` non-negative and equal to their own value rounded to two
decimals (rounding is applied exactly once, in `to_dict` at record
finalization), provided the raw OS figures (psutil CPU percentage,
resident set size, PowerShell working set) are non-negative. -/
theorem records_rounded_and_nonneg (env : Env) (os : String) (d : Bool) (maxP : Int)
    (hnn : EnvNonneg env) :
    ∀ r ∈ (collect_processes env os d maxP).1,
      0 ≤ r.cpu_percent ∧ 0 ≤ r.memory_megabyte ∧
      pyRound2 r.cpu_percent = r.cpu_percent ∧
      pyRound2 r.memory_megabyte = r.memory_megabyte := by
  obtain ⟨hcpu, hrss, hjson⟩ := hnn
  intro r hr
  rcases collect_mem env os d (probedPids env maxP) {} r hr with h | ⟨pid, _, hdict, _⟩
  · exact absurd h (List.not_mem_nil r)
  have hfields :
      (∃ a, 0 ≤ a ∧ r.cpu_percent = pyRound2 a) ∧
      (∃ b, 0 ≤ b ∧ r.memory_megabyte = pyRound2 b) := by
    unfold get_process_info at hdict
    by_cases h1 : pyStarts "linux" os = true
    · rw [if_pos h1] at hdict
      unfold get_process_info_linux at hdict
      exact linuxResolve_dict_fields pid _ _ _ _ (getCpuUsage_nonneg env pid hcpu)
        (fun v hv => hrss pid v hv) r hdict
    · rw [if_neg h1] at hdict
      by_cases h2 : os = "darwin"
      · rw [if_pos h2] at hdict
        unfold get_process_info_macos at hdict
        exact absurd hdict (fun h => macosResolve_not_dict pid _ _ _ r h)
      · rw [if_neg h2] at hdict
        by_cases h3 : pyIn "win" os = true
        · rw [if_pos h3] at hdict
          unfold get_process_info_windows at hdict
          exact winResolve_dict_fields pid _ _ _ (getCpuUsage_nonneg env pid hcpu)
            (fun x j m hx hm => hjson x j m hx hm) r hdict
        · rw [if_neg h3] at hdict
          simp at hdict
  obtain ⟨⟨a, ha, hca⟩, ⟨b, hb, hcb⟩⟩ := hfields
  refine ⟨?_, ?_, ?_, ?_⟩
  · rw [hca]; exact pyRound2_nonneg ha
  · rw [hcb]; exact pyRound2_nonneg hb
  · rw [hca, pyRound2_idem]
  · rw [hcb, pyRound2_idem]

/-- **C10**: a `max_processes` of 0 or below skips the truncation step
entirely: every enumerated PID is probed, the pass completes normally, and
the positive-integer precondition is not enforced (no error, no empty
result). -/
theorem nonpositive_limit_probes_all (env : Env) (os : String) (d : Bool)
    (maxP : Int) (hm : maxP ≤ 0) :
    probedPids env maxP = get_pid_list env ∧
    (collect_processes env os d maxP).2.total_found_process = env.rawPids.length ∧
    (collect_processes env os d maxP).2.accessible_processes +
      (collect_processes env os d maxP).2.permission_denied = env.rawPids.length := by
  have h0 := probedPids_nonpos env maxP hm
  have hlen : (probedPids env maxP).length = env.rawPids.length := by
    rw [h0]
    unfold get_pid_list
    exact length_sortDesc _
  refine ⟨h0, ?_, ?_⟩
  · show (probedPids env maxP).length = _
    exact hlen
  · rw [← hlen]
    have h := collect_counts env os d (probedPids env maxP) {}
    simpa using h

/-- **C5** (amended): `total_found_process` equals the number of PIDs
actually probed — `min(N, enumerated count)` when `N > 0` — because the
source computes `len(pids)` after reassigning `pids` to the truncated
list, not the pre-truncation enumerated count the claim states. -/
theorem total_found_counts_probed (env : Env) (os : String) (d : Bool)
    (N : Int) (hN : 0 < N) :
    (collect_processes env os d N).2.total_found_process
      = min N.toNat env.rawPids.length := by
  show (probedPids env N).length = _
  exact length_probedPids_pos env N hN

/-- **C5** counterexample: with five enumerated PIDs and `max_processes=3`,
`total_found_process` is 3, not the pre-truncation count 5 the claim
requires. -/
theorem total_found_not_pretruncation_cex :
    ¬ ((collect_processes envLinuxOk "linux" false 3).2.total_found_process
        = (get_pid_list envLinuxOk).length) := by decide

/-- **C6** counterexample: on darwin with `sysctl` exiting non-zero (no
exception raised), `_get_total_memory` falls off the end and returns
Python `None` — neither a positive integer nor the 8 GiB fallback. -/
theorem total_memory_none_cex :
    get_total_memory memEnvExitOne = none ∧
    ¬ ∃ n : Int, get_total_memory memEnvExitOne = some n ∧ 0 < n := by
  have h : get_total_memory memEnvExitOne = none := by decide
  refine ⟨h, ?_⟩
  rintro ⟨n, hn, _⟩
  rw [h] at hn
  exact Option.noConfusion hn

/-- **C6** (amended): the 8 GiB fallback applies only when the platform
probe raises an exception that reaches the outer handler (darwin `sysctl`
raising, linux `/proc/meminfo` open raising); a probe that fails without
raising (non-zero `sysctl` exit, missing `MemTotal:` line, any windows
failure, which the inner handler swallows) yields `None`, and an
unsupported platform yields `0`.  The fallback itself is positive. -/
theorem total_memory_fallback_on_exception (env : MemEnv) :
    (pyIn "darwin" (pyLower env.os) = true →
      ∀ e, env.sysctl = .error e → get_total_memory env = some memFallback) ∧
    (pyIn "darwin" (pyLower env.os) = false → pyIn "linux" (pyLower env.os) = true →
      ∀ e, env.meminfo = .error e → get_total_memory env = some memFallback) ∧
    0 < memFallback := by
  refine ⟨?_, ?_, by norm_num [memFallback]⟩
  · intro hd e he
    simp [get_total_memory, hd, he]
  · intro hd hl e he
    simp [get_total_memory, hd, hl, he]

theorem rowVals_ok {α : Type} (pr : PyDict α) (ks : List String)
    (h : ∀ k ∈ ks, (pdGet pr k).isSome = true) :
    ∃ vs : List α, rowVals pr ks = .ok vs ∧ vs.length = ks.length := by
  induction ks with
  | nil => exact ⟨[], rfl, rfl⟩
  | cons k ks ih =>
    have hk := h k (List.mem_cons_self k ks)
    rcases hv : pdGet pr k with _ | v
    · rw [hv] at hk
      simp at hk
    · obtain ⟨vs, hvs, hlen⟩ := ih (fun k hk => h k (List.mem_cons_of_mem _ hk))
      refine ⟨v :: vs, ?_, by simp [hlen]⟩
      unfold rowVals
      rw [hv, hvs]

theorem buildRows_ok {α : Type} (strFn : α → String) (headers : List String)
    (l : List (PyDict α))
    (h : ∀ pr ∈ l, ∀ k ∈ headers, (pdGet pr k).isSome = true) :
    ∃ rows : List String, buildRows strFn headers l = .ok rows ∧ rows.length = l.length := by
  induction l with
  | nil => exact ⟨[], rfl, rfl⟩
  | cons pr rest ih =>
    obtain ⟨vs, hvs, _⟩ := rowVals_ok pr headers (h pr (List.mem_cons_self pr rest))
    obtain ⟨rows, hrows, hlen⟩ := ih (fun q hq => h q (List.mem_cons_of_mem _ hq))
    refine ⟨pyJoin "," (vs.map strFn) :: rows, ?_, by simp [hlen]⟩
    unfold buildRows
    rw [hvs, hrows]

/-- **C8**: CSV formatting of a report whose (post-`to_json`) process list
is empty fails with the explicit `"No process data passed."` error instead
of emitting text; for a non-empty list (whose records all carry the keys
of the first record) it emits the header row derived from the keys of the
first record, followed by exactly one joined line per process. -/
theorem csv_empty_error_and_shape {α : Type} (strFn : α → String) (data : FmtData α)
    (args : FmtArgs) (j : JsonOut α) (hj : to_json data args = .ok j) :
    (j.processes = [] → to_csv strFn data args = .error "No process data passed.") ∧
    (j.processes ≠ [] →
      (∀ pr ∈ j.processes, ∀ k ∈ (j.processes.headD []).map Prod.fst,
        (pdGet pr k).isSome = true) →
      ∃ rows, to_csv strFn data args
          = .ok (pyJoin "\n" (pyJoin "," ((j.processes.headD []).map Prod.fst) :: rows)) ∧
        rows.length = j.processes.length) := by
  constructor
  · intro hempty
    unfold to_csv
    rw [hj]
    simp [hempty]
  · intro hne hkeys
    obtain ⟨rows, hrows, hlen⟩ :=
      buildRows_ok strFn ((j.processes.headD []).map Prod.fst) j.processes hkeys
    refine ⟨rows, ?_, hlen⟩
    unfold to_csv
    rw [hj]
    have hempty : j.processes.isEmpty = false := by
      rcases hp : j.processes with _ | ⟨a, b⟩
      · exact absurd hp hne
      · rfl
    simp only [hempty, Bool.false_eq_true, if_false]
    rw [hrows]

theorem metric_source_always_returns_record_witness :
    (pyStarts "linux" "linux" = true ∨ "linux" = "darwin" ∨ pyIn "win" "linux" = true) ∧
    ((get_process_info envLinuxOk "linux" 1).isRec = true ∧
      ((get_process_info envLinuxOk "linux" 1).accOf = false →
        ((get_process_info envLinuxOk "linux" 1).errOf).isSome = true)) :=
  ⟨Or.inl (by decide),
    metric_source_always_returns_record envLinuxOk "linux" 1 (Or.inl (by decide))⟩

theorem collect_probes_min_descending_witness :
    (0 < (3:Int)) ∧
    (probedPids envLinuxOk 3 = (get_pid_list envLinuxOk).take (3:Int).toNat ∧
      (probedPids envLinuxOk 3).length = min (3:Int).toNat envLinuxOk.rawPids.length ∧
      (probedPids envLinuxOk 3).Sorted (· ≥ ·) ∧
      (collect_processes envLinuxOk "linux" false 3).2.accessible_processes +
        (collect_processes envLinuxOk "linux" false 3).2.permission_denied
        = min (3:Int).toNat envLinuxOk.rawPids.length) ∧
    probedPids envLinuxOk 3 = [50, 40, 30] :=
  ⟨by decide, collect_probes_min_descending envLinuxOk "linux" false 3 (by decide), by decide⟩

theorem record_error_discipline_witness :
    EnvMsgsOk envLinuxOk ∧
    (((get_process_info envLinuxOk "linux" 1).accOf = true →
        (get_process_info envLinuxOk "linux" 1).errOf = none) ∧
      ((get_process_info envLinuxOk "linux" 1).accOf = false →
        ∃ s, (get_process_info envLinuxOk "linux" 1).errOf = some s ∧ s ≠ "")) := by
  have hmsg : EnvMsgsOk envLinuxOk := by
    refine ⟨?_, ?_, ?_, ?_, ?_⟩
    · intro p e h; simp [envLinuxOk] at h
    · intro p e h; simp [envLinuxOk] at h
    · intro p e h; simp [envLinuxOk] at h
    · intro p e h; simp [envLinuxOk] at h
    · intro s e h
      simp [envLinuxOk] at h
      rw [← h]
      decide
  exact ⟨hmsg, record_error_discipline envLinuxOk "linux" 1 (Or.inl (by decide)) hmsg⟩

theorem total_found_counts_probed_witness :
    (0 < (3:Int)) ∧
    (collect_processes envLinuxOk "linux" false 3).2.total_found_process
      = min (3:Int).toNat envLinuxOk.rawPids.length :=
  ⟨by decide, total_found_counts_probed envLinuxOk "linux" false 3 (by decide)⟩

theorem total_memory_fallback_on_exception_witness :
    (pyIn "darwin" (pyLower memEnvRaise.os) = true) ∧
    memEnvRaise.sysctl = .error ⟨false, "boom"⟩ ∧
    get_total_memory memEnvRaise = some memFallback :=
  ⟨by decide, by decide,
    (total_memory_fallback_on_exception memEnvRaise).1 (by decide) ⟨false, "boom"⟩ (by decide)⟩

theorem records_rounded_and_nonneg_witness :
    EnvNonneg envLinuxOk ∧ rec50 ∈ (collect_processes envLinuxOk "linux" false 3).1 ∧
    (0 ≤ rec50.cpu_percent ∧ 0 ≤ rec50.memory_megabyte ∧
      pyRound2 rec50.cpu_percent = rec50.cpu_percent ∧
      pyRound2 rec50.memory_megabyte = rec50.memory_megabyte) := by
  have hnn : EnvNonneg envLinuxOk := by
    refine ⟨?_, ?_, ?_⟩
    · intro p r q a h
      injection h with h1 h2 h3
      rw [← h2]
      norm_num
    · intro p v h
      injection h with h1
      rw [← h1]
      norm_num
    · intro s j m h
      simp [envLinuxOk] at h
  have hmem : rec50 ∈ (collect_processes envLinuxOk "linux" false 3).1 := by decide
  exact ⟨hnn, hmem, records_rounded_and_nonneg envLinuxOk "linux" false 3 hnn rec50 hmem⟩

theorem returned_records_all_accessible_witness :
    rec50 ∈ (collect_processes envLinuxOk "linux" false 3).1 ∧ rec50.accessible = true := by
  have hmem : rec50 ∈ (collect_processes envLinuxOk "linux" false 3).1 := by decide
  exact ⟨hmem, returned_records_all_accessible envLinuxOk "linux" false 3 rec50 hmem⟩

theorem nonpositive_limit_probes_all_witness :
    ((0:Int) ≤ 0) ∧
    (probedPids envLinuxOk 0 = get_pid_list envLinuxOk ∧
      (collect_processes envLinuxOk "linux" false 0).2.total_found_process
        = envLinuxOk.rawPids.length ∧
      (collect_processes envLinuxOk "linux" false 0).2.accessible_processes +
        (collect_processes envLinuxOk "linux" false 0).2.permission_denied
        = envLinuxOk.rawPids.length) ∧
    probedPids envLinuxOk 0 = [50, 40, 30, 20, 10] :=
  ⟨by decide, nonpositive_limit_probes_all envLinuxOk "linux" false 0 (by decide), by decide⟩

theorem csv_empty_error_and_shape_witness :
    to_json fmtDataOne fmtArgsAdv = .ok jsonOutOne ∧
    to_json fmtDataEmpty fmtArgsAdv = .ok jsonOutEmpty ∧
    to_csv (fun s => s) fmtDataEmpty fmtArgsAdv = .error "No process data passed." ∧
    ∃ rows, to_csv (fun s => s) fmtDataOne fmtArgsAdv
        = .ok (pyJoin "\n"
            (pyJoin "," ((jsonOutOne.processes.headD []).map Prod.fst) :: rows)) ∧
      rows.length = jsonOutOne.processes.length := by
  have hj1 : to_json fmtDataOne fmtArgsAdv = .ok jsonOutOne := by decide
  have hj0 : to_json fmtDataEmpty fmtArgsAdv = .ok jsonOutEmpty := by decide
  refine ⟨hj1, hj0, ?_, ?_⟩
  · exact (csv_empty_error_and_shape (fun s => s) fmtDataEmpty fmtArgsAdv
      jsonOutEmpty hj0).1 (by decide)
  · exact (csv_empty_error_and_shape (fun s => s) fmtDataOne fmtArgsAdv
      jsonOutOne hj1).2 (by decide) (by decide)
